import Mathlib

/-!
Shallow embedding of the BrothRL decision engine (TypeScript) into Lean 4.

Numbers: JavaScript `number` values are modelled as rationals (ℚ); the
UCB action-value computation, which uses `Math.sqrt`/`Math.log`, is
modelled over the reals (ℝ) as the idealized reading of the float
formula.  Fallible code returns `Except`; `undefined`/optional fields
become `Option`; JavaScript `Map` objects become association lists with
JS `Map` semantics (`jsGet`/`jsSet`: insertion order preserved, setting
an existing key overwrites in place).
-/

namespace BrothRL

set_option linter.unusedVariables false

/-- Lookup in a JS-style `Map` modelled as an association list:
the value of the first entry whose key matches. -/
def jsGet {β : Type} (m : List (String × β)) (k : String) : Option β :=
  (m.find? (fun p => p.1 = k)).map (fun p => p.2)

/-- Update of a JS-style `Map`: if the key is present its value is
overwritten in place (insertion position kept), otherwise the new entry
is appended at the end. -/
def jsSet {β : Type} (m : List (String × β)) (k : String) (v : β) : List (String × β) :=
  if m.any (fun p => p.1 = k) then
    m.map (fun p => if p.1 = k then (k, v) else p)
  else
    m ++ [(k, v)]

/-! ## Data model (src/domain/entities/State.ts, Action.ts) -/

/-- Speaker of a conversation turn (`'agent' | 'user'`). -/
inductive Speaker where
  | agent
  | user
deriving DecidableEq, Repr

/-- Sentiment tag of a turn (`'positive' | 'negative' | 'neutral'`). -/
inductive Sentiment where
  | positive
  | negative
  | neutral
deriving DecidableEq, Repr

/-- A feature value: `number | string | boolean`. -/
inductive FeatureValue where
  | num (v : ℚ)
  | str (s : String)
  | bool (b : Bool)
deriving DecidableEq, Repr

/-- An `Action` (`Action.ts`): immutable record identified by `type`.
The opaque `parameters`/`metadata` records (`Record<string, any>`) are
not modelled; no verified operation inspects them. -/
structure Action where
  type : String
  name : String
  description : String
deriving DecidableEq, Repr

deriving instance DecidableEq for Except

/-- A single conversation turn.  Besides the `State.ts` fields this
carries the optional `action` snapshot that `Policy.getRepetitionPenalty`
reads (`turn.action?.type`), per the spec's ConversationTurn model. -/
structure ConversationTurn where
  speaker : Speaker
  text : String
  timestamp : String
  sentiment : Option Sentiment := none
  action : Option Action := none
deriving DecidableEq, Repr

/-- `ConversationState` data carried by a `State` object.  `userInfo`
and `metadata` are opaque `Record<string, any>` maps, modelled as string
association lists. -/
structure State where
  conversationId : String
  turnNumber : ℕ
  history : List ConversationTurn
  userInfo : List (String × String) := []
  intent : Option String := none
  features : List (String × FeatureValue)
  metadata : List (String × String) := []
deriving DecidableEq, Repr

/-- Bucketing of a numeric feature: `Math.floor(value * 10) / 10`. -/
def bucket (v : ℚ) : ℚ :=
  (Int.floor (v * 10) : ℚ) / 10

/-- Decimal rendering of `z/10` tenths, as JS renders such numbers in a
template literal: an integer prints without a fractional part, otherwise
one decimal digit is printed. -/
def tenthsToString (z : ℤ) : String :=
  if z % 10 = 0 then toString (z / 10)
  else if z < 0 then "-" ++ toString ((-z) / 10) ++ "." ++ toString ((-z) % 10)
  else toString (z / 10) ++ "." ++ toString (z % 10)

/-- Rendering of one feature value inside the context key: strings and
booleans via `${value}`, numbers bucketed to 0.1 resolution
(`${Math.floor(value * 10) / 10}`). -/
def renderFeature : FeatureValue → String
  | .str s => s
  | .bool b => if b then "true" else "false"
  | .num v => tenthsToString (Int.floor (v * 10))

/-- `State.getContextKey`: `intent:<intent>` when intent is truthy, then
`name:value` for each feature in insertion order, joined with `|`. -/
def getContextKey (s : State) : String :=
  let intentParts : List String :=
    match s.intent with
    | some i => if i ≠ "" then ["intent:" ++ i] else []
    | none => []
  let featureParts : List String :=
    s.features.map (fun kv => kv.1 ++ ":" ++ renderFeature kv.2)
  String.intercalate "|" (intentParts ++ featureParts)

/-- Bucketing lifted to feature values (numbers bucketed, strings and
booleans unchanged); used to state context-key determinism. -/
def bucketFeature : FeatureValue → FeatureValue
  | .num v => .num (bucket v)
  | x => x

/-! ## Reward calculator (src/domain/entities/Reward.ts) -/

/-- Reward signal type tag: `'immediate' | 'delayed'`. -/
inductive RewardType where
  | immediate
  | delayed
deriving DecidableEq, Repr

/-- A `RewardSignal` (`metadata` omitted; never read by the core). -/
structure RewardSignal where
  value : ℚ
  type : RewardType
  source : String
deriving DecidableEq, Repr

/-- Metrics attached to a `ConversationOutcome`; every field is
optional in the source. -/
structure OutcomeMetrics where
  duration : Option ℚ := none
  userSatisfaction : Option ℚ := none
  goalAchieved : Option Bool := none
deriving DecidableEq, Repr

/-- A `ConversationOutcome`. -/
structure ConversationOutcome where
  success : Bool
  metrics : Option OutcomeMetrics := none
deriving DecidableEq, Repr

/-- Resolved reward configuration (constructor defaults:
`immediateWeight 0.3`, `delayedWeight 0.7`, `discountFactor 0.99`). -/
structure RewardConfig where
  immediateWeight : ℚ := 3/10
  delayedWeight : ℚ := 7/10
  discountFactor : ℚ := 99/100
deriving DecidableEq, Repr

/-- `Reward.normalize`: clamp to `[-1, 1]`
(`Math.max(-1, Math.min(1, reward))`). -/
def normalize (reward : ℚ) : ℚ :=
  max (-1) (min 1 reward)

/-- `Reward.calculateDelayed`.  The `userSatisfaction` and `duration`
guards are JavaScript truthiness tests (`if (outcome.metrics?.x)`), so a
present-but-zero metric does not fire them; `duration` additionally has
the explicit `> 600` comparison. -/
def calculateDelayed (outcome : ConversationOutcome) : RewardSignal :=
  let base : ℚ := if outcome.success then 1 else -1
  let satBonus : ℚ :=
    match outcome.metrics.bind (fun m => m.userSatisfaction) with
    | some us => if us ≠ 0 then (us - 1/2) * (1/2) else 0
    | none => 0
  let goalBonus : ℚ :=
    if (outcome.metrics.bind (fun m => m.goalAchieved)).getD false then 1/2 else 0
  let durationPenalty : ℚ :=
    match outcome.metrics.bind (fun m => m.duration) with
    | some d => if d ≠ 0 ∧ d > 600 then -(1/5) else 0
    | none => 0
  { value := normalize (base + satBonus + goalBonus + durationPenalty)
    type := .delayed
    source := "conversation_outcome" }

/-- `Reward.combine`: weighted sum of the signals (`immediateWeight` for
immediate signals, `delayedWeight` for delayed ones), clamped. -/
def combine (cfg : RewardConfig) (signals : List RewardSignal) : ℚ :=
  normalize (signals.foldl
    (fun total s =>
      total + s.value * (if s.type = .immediate then cfg.immediateWeight else cfg.delayedWeight))
    0)

/-- `Reward.discount`: `reward * discountFactor ^ steps`. -/
def discount (cfg : RewardConfig) (reward : ℚ) (steps : ℕ) : ℚ :=
  reward * cfg.discountFactor ^ steps

/-! ## Environment credit assignment (src/domain/services/Environment.ts) -/

/-- One entry of the in-memory episode history that `Environment.step`
accumulates: the prior state, the action taken, and the immediate
reward value. -/
structure StepRecord where
  state : State
  action : Action
  reward : ℚ
deriving DecidableEq, Repr

/-- `Environment.processOutcome`, as the ordered list of
`policy.update(state, action, totalReward)` calls it issues when a
policy is set: one delayed reward is computed from the outcome, then the
episode history is walked backward (`for i = length-1; i >= 0; i--`);
entry `i` receives `combine` of its stored immediate reward and the
delayed reward discounted by `stepsFromEnd = length - 1 - i`. -/
def processOutcomeUpdates (cfg : RewardConfig) (hist : List StepRecord)
    (outcome : ConversationOutcome) : List (State × Action × ℚ) :=
  let delayed := (calculateDelayed outcome).value
  hist.enum.reverse.map (fun p =>
    let stepsFromEnd := hist.length - 1 - p.1
    let discountedDelayed := discount cfg delayed stepsFromEnd
    let total := combine cfg
      [{ value := p.2.reward, type := .immediate, source := "step" },
       { value := discountedDelayed, type := .delayed, source := "outcome" }]
    (p.2.state, p.2.action, total))

/-! ## Contextual bandit (src/infrastructure/algorithms/ContextualBandit.ts)
and the base policy helper (src/domain/base/Policy.ts) -/

/-- Statistics for one `(context, actionType)` arm. -/
structure ArmStats where
  pulls : ℕ
  totalReward : ℚ
  averageReward : ℚ
deriving DecidableEq, Repr

/-- Resolved bandit/policy configuration (constructor defaults:
`initialReward 0`, `confidenceBonus 2`, `useUCB true`,
`repetitionPenalty 1`, `lookbackWindow 2`). -/
structure BanditConfig where
  initialReward : ℚ := 0
  confidenceBonus : ℚ := 2
  useUCB : Bool := true
  repetitionPenalty : ℚ := 1
  lookbackWindow : ℕ := 2
deriving Repr

/-- The bandit's arm statistics: a JS `Map` from context key to a JS
`Map` from action type to `ArmStats`. -/
abbrev ArmMap := List (String × List (String × ArmStats))

/-- `ContextualBandit.getArmStats`: stats looked up for
`(context, actionType)`, defaulting to `{0, 0, initialReward}` when
absent.  (The source also inserts the default entry into the map; a
zero-pull entry contributes nothing to any later lookup or pull total,
so the model keeps the lookup pure.) -/
def getArmStats (cfg : BanditConfig) (m : ArmMap) (context actionType : String) : ArmStats :=
  ((jsGet m context).bind (fun cm => jsGet cm actionType)).getD
    { pulls := 0, totalReward := 0, averageReward := cfg.initialReward }

/-- `ContextualBandit.setArmStats`. -/
def setArmStats (m : ArmMap) (context actionType : String) (stats : ArmStats) : ArmMap :=
  jsSet m context (jsSet ((jsGet m context).getD []) actionType stats)

/-- Total pulls across all arms of one context
(`Array.from(contextStats.values()).reduce((sum, s) => sum + s.pulls, 0)`,
`0` when the context is absent). -/
def contextTotalPulls (m : ArmMap) (context : String) : ℕ :=
  ((jsGet m context).getD []).foldl (fun sum p => sum + p.2.pulls) 0

/-- Core of `ContextualBandit.getActionValue` given the arm's stats and
the context's total pulls: `initialReward` for an unpulled arm; with UCB
enabled, `averageReward + confidenceBonus * sqrt(ln(totalPulls) / pulls)`
(falling back to `initialReward` when `totalPulls == 0`); otherwise the
plain average.  Real-valued: the idealized reading of the float
`Math.sqrt`/`Math.log` arithmetic. -/
noncomputable def ucbValue (cfg : BanditConfig) (stats : ArmStats) (totalPulls : ℕ) : ℝ :=
  if stats.pulls = 0 then (cfg.initialReward : ℝ)
  else if cfg.useUCB then
    if totalPulls = 0 then (cfg.initialReward : ℝ)
    else (stats.averageReward : ℝ) +
      (cfg.confidenceBonus : ℝ) * Real.sqrt (Real.log totalPulls / stats.pulls)
  else (stats.averageReward : ℝ)

/-- `ContextualBandit.getActionValue`. -/
noncomputable def getActionValue (cfg : BanditConfig) (m : ArmMap)
    (context actionType : String) : ℝ :=
  ucbValue cfg (getArmStats cfg m context actionType) (contextTotalPulls m context)

/-- `ContextualBandit.selectBestAction` (the exploit branch of
`selectAction`): starting from `bestAction = actions[0]` and
`bestValue = -Infinity`, scan the action list and keep the action whose
value is strictly greater than the best so far (first maximum wins).
`none` models the `undefined` result on an empty action space. -/
noncomputable def selectBestAction (cfg : BanditConfig) (m : ArmMap) (st : State)
    (actions : List Action) : Option Action :=
  let context := getContextKey st
  (actions.foldl
    (fun (acc : Option Action × Option ℝ) (a : Action) =>
      let value := getActionValue cfg m context a.type
      match acc.2 with
      | none => (some a, some value)
      | some bestValue =>
        if bestValue < value then (some a, some value) else acc)
    (actions.head?, none)).1

/-- `ContextualBandit.update`: read-modify-write of the arm's stats;
`pulls` incremented, `reward` added to `totalReward`, `averageReward`
recomputed as `totalReward / pulls`. -/
def update (cfg : BanditConfig) (m : ArmMap) (st : State) (a : Action) (reward : ℚ) : ArmMap :=
  let context := getContextKey st
  let actionType := a.type
  let stats := getArmStats cfg m context actionType
  let newStats : ArmStats :=
    { pulls := stats.pulls + 1
      totalReward := stats.totalReward + reward
      averageReward := (stats.totalReward + reward) / ((stats.pulls : ℚ) + 1) }
  setArmStats m context actionType newStats

/-- JS `Array.prototype.slice(-n)`: the last `n` elements, except that
`slice(-0)` is `slice(0)`, the whole array. -/
def takeLastJS {α : Type} (n : ℕ) (l : List α) : List α :=
  if n = 0 then l else l.drop (l.length - n)

/-- `Policy.getRepetitionPenalty` (src/domain/base/Policy.ts): count how
often `actionType` occurs among the actions of the last `lookbackWindow`
agent turns of the state's history, times `repetitionPenalty`; `0` when
it does not occur.  This helper is defined on the base class but is
never invoked by `ContextualBandit`'s action scoring. -/
def getRepetitionPenalty (cfg : BanditConfig) (actionType : String) (st : State) : ℚ :=
  let recentActions :=
    (takeLastJS cfg.lookbackWindow
      (st.history.filter (fun t => t.speaker = Speaker.agent && t.action.isSome))).map
      (fun t => ((t.action.map (fun a => a.type)).getD ""))
  let recentCount := (recentActions.filter (fun a => a = actionType)).length
  if recentCount > 0 then (recentCount : ℚ) * cfg.repetitionPenalty else 0

/-! ## EpsilonGreedy (source: the exploration-strategy wrapper) -/

/-- The raw `EpsilonGreedyConfig` fields the epsilon logic reads
(`epsilon`, `epsilonMin`, `epsilonDecay` plus the base `PolicyConfig`
exploration fields used as fallbacks); all optional in the source. -/
structure EpsilonGreedyConfig where
  epsilon : Option ℚ := none
  epsilonMin : Option ℚ := none
  epsilonDecay : Option ℚ := none
  explorationRate : Option ℚ := none
  minExplorationRate : Option ℚ := none
  explorationDecay : Option ℚ := none
deriving DecidableEq, Repr

/-- The mutable state of an `EpsilonGreedy` policy relevant to its
epsilon handling.  `configExplorationRate` is the `Required` resolved
`this.config.explorationRate` produced by the `Policy` base constructor
(`config.explorationRate ?? 0.1`); the base policy, if any, is not
modelled (epsilon handling never reads it). -/
structure EpsilonGreedyState where
  epsilon : ℚ
  epsilonMin : ℚ
  epsilonDecay : ℚ
  configExplorationRate : ℚ
  stepCount : ℕ
deriving DecidableEq, Repr

/-- The `EpsilonGreedy` constructor:
`epsilon = config.epsilon ?? config.explorationRate ?? 0.1`, and
analogously for `epsilonMin` (default `0.01`) and `epsilonDecay`
(default `0.995`). -/
def mkEpsilonGreedy (c : EpsilonGreedyConfig) : EpsilonGreedyState :=
  { epsilon := c.epsilon.getD (c.explorationRate.getD (1/10))
    epsilonMin := c.epsilonMin.getD (c.minExplorationRate.getD (1/100))
    epsilonDecay := c.epsilonDecay.getD (c.explorationDecay.getD (199/200))
    configExplorationRate := c.explorationRate.getD (1/10)
    stepCount := 0 }

/-- `EpsilonGreedy.getEpsilon`. -/
def getEpsilon (s : EpsilonGreedyState) : ℚ := s.epsilon

/-- `EpsilonGreedy.setEpsilon`:
`epsilon = Math.max(epsilonMin, Math.min(1.0, epsilon))`. -/
def setEpsilon (s : EpsilonGreedyState) (e : ℚ) : EpsilonGreedyState :=
  { s with epsilon := max s.epsilonMin (min 1 e) }

/-- `EpsilonGreedy.resetEpsilon`:
`epsilon = this.config.explorationRate ?? 0.1` — `this.config` is the
`Required` resolved base config, so this reads the resolved
`explorationRate`, not the `epsilon` the instance was constructed
with. -/
def resetEpsilon (s : EpsilonGreedyState) : EpsilonGreedyState :=
  { s with epsilon := s.configExplorationRate }

/-- `EpsilonGreedy.reset`: `super.reset()` (zeroes `stepCount`), then
`resetEpsilon()`, then resets the base policy when present. -/
def egReset (s : EpsilonGreedyState) : EpsilonGreedyState :=
  resetEpsilon { s with stepCount := 0 }

/-! ## Guardrails (src/infrastructure/safety/Guardrails.ts) -/

/-- Result of `IPolicy.selectAction`, whose TypeScript type is
`Action | Promise<Action>`: either a synchronously returned action or a
promise (carrying the action the promise would eventually resolve to —
the guardrail code never awaits it). -/
inductive PolicyResult where
  | sync (a : Action)
  | async (resolvesTo : Action)
deriving DecidableEq, Repr

/-- A guardrail rule: named predicate with an optional rule-specific
fallback action and a blocking flag (`blocking?: boolean`, absent =
`false`). -/
structure GuardrailRule where
  name : String
  description : String
  check : State → Action → Bool
  fallbackAction : Option Action := none
  blocking : Bool := false

/-- Resolved guardrail configuration (the constructor fills `rules`,
`whitelist`, `blacklist` with `[]`, `logViolations` with `true`;
`fallbackPolicy`/`defaultFallback` stay optional).  The fallback policy
is its `selectAction` function. -/
structure GuardrailConfig where
  rules : List GuardrailRule := []
  fallbackPolicy : Option (State → PolicyResult) := none
  defaultFallback : Option Action := none
  logViolations : Bool := true
  whitelist : List String := []
  blacklist : List String := []
  minConfidence : ℚ := 0

/-- A recorded guardrail violation. -/
structure Violation where
  rule : String
  action : Action
  state : State
  timestamp : String
  fallbackUsed : Bool
deriving DecidableEq, Repr

/-- The `Violation` record `logViolation` pushes. -/
def mkViolation (ruleName : String) (a : Action) (st : State) (now : String)
    (fallbackUsed : Bool) : Violation :=
  { rule := ruleName, action := a, state := st, timestamp := now, fallbackUsed := fallbackUsed }

/-- The rule list as the constructor's
`new Map(rules.map(rule => [rule.name, rule]))` iterates it: JS `Map`
insertion semantics (first occurrence fixes the position, a duplicate
name overwrites the value). -/
def rulesOf (cfg : GuardrailConfig) : List GuardrailRule :=
  (cfg.rules.foldl (fun m r => jsSet m r.name r) []).map (fun p => p.2)

/-- `Guardrails.isSafe`: `false` on a whitelist miss (when the whitelist
is non-empty), a blacklist hit, or any blocking rule whose check fires;
else `true`. -/
def isSafe (cfg : GuardrailConfig) (st : State) (a : Action) : Bool :=
  if cfg.whitelist.length > 0 && !(cfg.whitelist.contains a.type) then false
  else if cfg.blacklist.contains a.type then false
  else !((rulesOf cfg).any (fun rule => rule.blocking && rule.check st a))

/-- The fallback resolution performed by `Guardrails.handleViolation`
after logging: the rule-specific fallback, else the default fallback,
else the fallback policy's `selectAction` — whose result is returned if
it is a plain action but replaced by the ORIGINAL action when it is a
`Promise` (`policyAction instanceof Promise ? action : policyAction`) —
else the fatal no-fallback error. -/
def resolveFallback (cfg : GuardrailConfig) (st : State) (a : Action)
    (ruleName : String) (fallbackAction : Option Action) : Except String Action :=
  match fallbackAction with
  | some f => Except.ok f
  | none =>
    match cfg.defaultFallback with
    | some d => Except.ok d
    | none =>
      match cfg.fallbackPolicy with
      | some policy =>
        match policy st with
        | .sync policyAction => Except.ok policyAction
        | .async _ => Except.ok a
      | none => Except.error ("Guardrail violation: " ++ ruleName ++ " - No fallback available")

/-- `Guardrails.handleViolation`: log the violation (an unconditional
push onto `this.violations`), then resolve the fallback. -/
def handleViolation (cfg : GuardrailConfig) (st : State) (a : Action) (now : String)
    (ruleName : String) (fallbackAction : Option Action) (acc : List Violation) :
    Except String Action × List Violation :=
  (resolveFallback cfg st a ruleName fallbackAction,
   acc ++ [mkViolation ruleName a st now true])

/-- The rule loop of `Guardrails.validate`: the first rule whose check
fires and which is blocking is handled as a violation; a firing
non-blocking rule is merely logged — and only when `logViolations` is
set — and the loop continues; the original action is returned when the
loop completes. -/
def validateRules (cfg : GuardrailConfig) (st : State) (a : Action) (now : String) :
    List GuardrailRule → List Violation → Except String Action × List Violation
  | [], acc => (Except.ok a, acc)
  | rule :: rest, acc =>
    if rule.check st a then
      if rule.blocking then
        handleViolation cfg st a now rule.name rule.fallbackAction acc
      else if cfg.logViolations then
        validateRules cfg st a now rest (acc ++ [mkViolation rule.name a st now false])
      else
        validateRules cfg st a now rest acc
    else
      validateRules cfg st a now rest acc

/-- `Guardrails.validate`, returning the action (or the fatal error)
together with the violations recorded during the call.  `now` stands
for `new Date().toISOString()`. -/
def validate (cfg : GuardrailConfig) (st : State) (a : Action) (now : String) :
    Except String Action × List Violation :=
  if cfg.whitelist.length > 0 && !(cfg.whitelist.contains a.type) then
    handleViolation cfg st a now "whitelist" none []
  else if cfg.blacklist.contains a.type then
    handleViolation cfg st a now "blacklist" none []
  else
    validateRules cfg st a now (rulesOf cfg) []

/-- The first violated guard `validate` encounters, with the fallback
action available at that point: the whitelist, then the blacklist (no
rule-specific fallback for either), then the first blocking rule whose
check fires. -/
def firstViolation (cfg : GuardrailConfig) (st : State) (a : Action) :
    Option (String × Option Action) :=
  if cfg.whitelist.length > 0 && !(cfg.whitelist.contains a.type) then
    some ("whitelist", none)
  else if cfg.blacklist.contains a.type then
    some ("blacklist", none)
  else
    ((rulesOf cfg).find? (fun rule => rule.check st a && rule.blocking)).map
      (fun rule => (rule.name, rule.fallbackAction))

/-- The pure effect one `ContextualBandit.update` call has on the
targeted arm's statistics. -/
def armStep (reward : ℚ) (s : ArmStats) : ArmStats :=
  { pulls := s.pulls + 1
    totalReward := s.totalReward + reward
    averageReward := (s.totalReward + reward) / ((s.pulls : ℚ) + 1) }

/-! ## Concrete scenarios used by witnesses and counterexamples -/

/-- A minimal state: fresh conversation, no history, no features. -/
def blankState : State :=
  { conversationId := "conv_1", turnNumber := 0, history := [], features := [] }

/-- Guardrail scenario with all three fallback sources configured: a
blocking rule carrying its own fallback, a default fallback, and a
synchronous fallback policy. -/
def fbOrderCfg : GuardrailConfig :=
  { rules := [{ name := "no_risky", description := "", check := fun _ a => a.type == "risky",
                fallbackAction := some { type := "rule_fb", name := "RuleFb", description := "" },
                blocking := true }]
    fallbackPolicy := some (fun _ => .sync { type := "policy_fb", name := "PolicyFb", description := "" })
    defaultFallback := some { type := "default_fb", name := "DefaultFb", description := "" } }

/-- The violating action of the `fbOrderCfg` scenario. -/
def fbOrderAction : Action := { type := "risky", name := "Risky", description := "" }

/-- Guardrail scenario for the asynchronous-fallback-policy behavior:
a blacklisted action type, no rule fallback, no default fallback, and a
fallback policy whose `selectAction` returns a promise resolving to the
safe action. -/
def asyncPolicyCfg : GuardrailConfig :=
  { blacklist := ["bad"]
    fallbackPolicy := some (fun _ => .async { type := "safe", name := "Safe", description := "" }) }

/-- The blacklisted action of the `asyncPolicyCfg` scenario. -/
def asyncPolicyBad : Action := { type := "bad", name := "Bad", description := "" }

/-- Guardrail scenario with one always-firing non-blocking rule and
violation logging enabled. -/
def nonBlockingLogCfg : GuardrailConfig :=
  { rules := [{ name := "soft", description := "", check := fun _ _ => true, blocking := false }]
    logViolations := true }

/-- Same single non-blocking rule with `logViolations := false`. -/
def nonBlockingSilentCfg : GuardrailConfig :=
  { rules := [{ name := "soft", description := "", check := fun _ _ => true, blocking := false }]
    logViolations := false
    blacklist := ["bad"] }

/-- A harmless action accepted by every rule-free guard. -/
def benignAction : Action := { type := "ok", name := "Ok", description := "" }

/-- Bandit configuration with UCB disabled (plain averages),
default repetition penalty 1 and lookback window 2. -/
def banditNoUCBCfg : BanditConfig :=
  { initialReward := 0, confidenceBonus := 2, useUCB := false,
    repetitionPenalty := 1, lookbackWindow := 2 }

/-- The action repeated twice in the recent history. -/
def repeatAction : Action := { type := "ask_more", name := "Ask More", description := "" }

/-- The lower-valued alternative action. -/
def altAction : Action := { type := "wrap_up", name := "Wrap Up", description := "" }

/-- A state whose last two agent turns both carry `repeatAction`
(so the lookback window of 2 contains it twice). -/
def repeatState : State :=
  { conversationId := "conv_2", turnNumber := 2
    history :=
      [{ speaker := .agent, text := "Ask More", timestamp := "t1", action := some repeatAction },
       { speaker := .agent, text := "Ask More", timestamp := "t2", action := some repeatAction }]
    features := [] }

/-- Arm statistics for the blank context: `ask_more` averages 3/5 over
2 pulls, `wrap_up` averages 1/2 over 2 pulls. -/
def repeatArmMap : ArmMap :=
  [("", [("ask_more", { pulls := 2, totalReward := 6/5, averageReward := 3/5 }),
         ("wrap_up", { pulls := 2, totalReward := 1, averageReward := 1/2 })])]

/-- The standard `ask_question` action. -/
def askAction : Action := { type := "ask_question", name := "Ask", description := "" }

/-- The terminal `end_call` action. -/
def endCallAction : Action := { type := "end_call", name := "End", description := "" }

/-- A recorded 3-step episode with immediate rewards 0.1, 0.2, 0.3. -/
def demoHistory : List StepRecord :=
  [{ state := blankState, action := askAction, reward := 1/10 },
   { state := blankState, action := askAction, reward := 2/10 },
   { state := blankState, action := endCallAction, reward := 3/10 }]

/-- A bare successful outcome with no metrics. -/
def successOutcome : ConversationOutcome := { success := true }

/-- First of two states agreeing on intent and bucketed features but on
nothing else. -/
def ctxStateA : State :=
  { conversationId := "conv_A", turnNumber := 1
    history := [{ speaker := .user, text := "hi", timestamp := "t0" }]
    intent := some "book_flight"
    features := [("warmth", .num (51/100)), ("vip", .bool true)]
    metadata := [("channel", "voice")] }

/-- Second state: different id, turn, history and metadata; its numeric
feature 0.55 buckets to the same 0.5 as `ctxStateA`'s 0.51. -/
def ctxStateB : State :=
  { conversationId := "conv_B", turnNumber := 9
    history := []
    intent := some "book_flight"
    features := [("warmth", .num (55/100)), ("vip", .bool true)]
    metadata := [] }

/-! ## Guardrail lemmas -/

theorem validateRules_fst (cfg : GuardrailConfig) (st : State) (a : Action) (now : String)
    (rules : List GuardrailRule) (acc : List Violation) :
    (validateRules cfg st a now rules acc).1 =
      match rules.find? (fun rule => rule.check st a && rule.blocking) with
      | some rule => resolveFallback cfg st a rule.name rule.fallbackAction
      | none => Except.ok a := by
  induction rules generalizing acc with
  | nil => simp [validateRules]
  | cons r rest ih =>
    by_cases hc : r.check st a
    · by_cases hb : r.blocking
      · simp [validateRules, List.find?_cons, hc, hb, handleViolation]
      · rw [Bool.not_eq_true] at hb
        simp only [validateRules, List.find?_cons, hc, hb, if_true, Bool.and_false,
          Bool.false_eq_true, if_false]
        split <;> exact ih _
    · rw [Bool.not_eq_true] at hc
      simp only [validateRules, List.find?_cons, hc, Bool.false_and, if_false,
        Bool.false_eq_true]
      exact ih _

theorem validate_fst (cfg : GuardrailConfig) (st : State) (a : Action) (now : String) :
    (validate cfg st a now).1 =
      match firstViolation cfg st a with
      | some (name, fb) => resolveFallback cfg st a name fb
      | none => Except.ok a := by
  unfold validate firstViolation
  split_ifs with h1 h2
  · rfl
  · rfl
  · rw [validateRules_fst]
    cases hfind : (rulesOf cfg).find? (fun rule => rule.check st a && rule.blocking) <;>
      simp [hfind]

theorem isSafe_eq_false_iff (cfg : GuardrailConfig) (st : State) (a : Action) :
    isSafe cfg st a = false ↔ ∃ v, firstViolation cfg st a = some v := by
  unfold isSafe firstViolation
  split_ifs with h1 h2
  · simp
  · simp
  · simp only [Bool.not_eq_false', List.any_eq_true, Option.map_eq_some']
    constructor
    · rintro ⟨r, hr, hpr⟩
      have hsome : ((rulesOf cfg).find? (fun rule => rule.check st a && rule.blocking)).isSome := by
        rw [List.find?_isSome]
        exact ⟨r, hr, by simp_all [Bool.and_comm]⟩
      rcases Option.isSome_iff_exists.mp hsome with ⟨r', hr'⟩
      exact ⟨(r'.name, r'.fallbackAction), r', hr', rfl⟩
    · rintro ⟨v, r, hr, hv⟩
      have hmem := List.mem_of_find?_eq_some hr
      have hpr := List.find?_some hr
      exact ⟨r, hmem, by simp_all [Bool.and_comm]⟩

theorem validateRules_no_blocking (cfg : GuardrailConfig) (st : State) (a : Action)
    (now : String) (rules : List GuardrailRule) (acc : List Violation)
    (h : ∀ r ∈ rules, ¬(r.check st a && r.blocking) = true) :
    validateRules cfg st a now rules acc =
      (Except.ok a,
       acc ++ if cfg.logViolations then
           (rules.filter (fun r => r.check st a)).map
             (fun r => mkViolation r.name a st now false)
         else []) := by
  induction rules generalizing acc with
  | nil => simp [validateRules]
  | cons r rest ih =>
    have hr := h r (List.mem_cons_self r rest)
    have hrest : ∀ x ∈ rest, ¬(x.check st a && x.blocking) = true :=
      fun x hx => h x (List.mem_cons_of_mem r hx)
    by_cases hc : r.check st a
    · have hb : r.blocking = false := by
        rw [hc, Bool.true_and, Bool.not_eq_true] at hr
        exact hr
      rcases hlog : cfg.logViolations with _ | _
      · simp only [validateRules, hc, hb, if_true, Bool.false_eq_true, if_false, hlog]
        rw [ih _ hrest]
        simp [hlog, hc]
      · simp only [validateRules, hc, hb, if_true, Bool.false_eq_true, if_false, hlog]
        rw [ih _ hrest]
        simp [hlog, hc, List.filter_cons, List.append_assoc]
    · rw [Bool.not_eq_true] at hc
      simp only [validateRules, hc, Bool.false_eq_true, if_false]
      rw [ih _ hrest]
      simp [hc, List.filter_cons]

theorem validateRules_blocking_getLast (cfg : GuardrailConfig) (st : State) (a : Action)
    (now : String) (rules : List GuardrailRule) (acc : List Violation) (r : GuardrailRule)
    (h : rules.find? (fun rule => rule.check st a && rule.blocking) = some r) :
    ((validateRules cfg st a now rules acc).2).getLast? =
      some (mkViolation r.name a st now true) := by
  induction rules generalizing acc with
  | nil => simp [List.find?] at h
  | cons r0 rest ih =>
    by_cases hp : (r0.check st a && r0.blocking) = true
    · simp only [List.find?_cons, hp, if_true] at h
      obtain rfl : r0 = r := by injection h
      obtain ⟨hc, hb⟩ := Bool.and_eq_true_iff.mp hp
      simp [validateRules, hc, hb, handleViolation, List.getLast?_concat]
    · rw [Bool.not_eq_true] at hp
      simp only [List.find?_cons, hp, Bool.false_eq_true, if_false] at h
      by_cases hc : r0.check st a
      · have hb : r0.blocking = false := by
          rw [hc, Bool.true_and] at hp
          exact hp
        simp only [validateRules, hc, hb, if_true, Bool.false_eq_true, if_false]
        split
        · exact ih _ h
        · exact ih _ h
      · rw [Bool.not_eq_true] at hc
        simp only [validateRules, hc, Bool.false_eq_true, if_false]
        exact ih _ h

/-! ## Claim C1 -/

/-- C1 (amended).  For every state and action that violates a blocking
guardrail (whitelist miss, blacklist hit, or a blocking rule whose check
returns true), `validate` resolves the replacement in this exact order:
the violated guard's own fallback action; else the configured default
fallback; else the fallback policy's `selectAction` — returning its
result when it is synchronous but the ORIGINAL action when it returns a
promise; and when none of the three is configured it fails with the
fatal "no fallback" error.  In particular, when all three are
configured the rule-specific fallback is returned without consulting
the others. -/
theorem validate_fallback_order (cfg : GuardrailConfig) (st : State) (a : Action)
    (now : String) (h : isSafe cfg st a = false) :
    ∃ name fb, firstViolation cfg st a = some (name, fb) ∧
      (∀ f, fb = some f → (validate cfg st a now).1 = Except.ok f) ∧
      (fb = none → ∀ d, cfg.defaultFallback = some d →
        (validate cfg st a now).1 = Except.ok d) ∧
      (fb = none → cfg.defaultFallback = none → ∀ p, cfg.fallbackPolicy = some p →
        (validate cfg st a now).1 =
          Except.ok (match p st with | .sync pa => pa | .async _ => a)) ∧
      (fb = none → cfg.defaultFallback = none → cfg.fallbackPolicy = none →
        (validate cfg st a now).1 =
          Except.error ("Guardrail violation: " ++ name ++ " - No fallback available")) := by
  obtain ⟨⟨name, fb⟩, hfv⟩ := (isSafe_eq_false_iff cfg st a).mp h
  refine ⟨name, fb, hfv, ?_, ?_, ?_, ?_⟩
  · rintro f rfl
    rw [validate_fst, hfv]
    rfl
  · rintro rfl d hd
    rw [validate_fst, hfv]
    simp [resolveFallback, hd]
  · rintro rfl hd p hp
    rw [validate_fst, hfv]
    simp only [resolveFallback, hd, hp]
    cases p st <;> rfl
  · rintro rfl hd hp
    rw [validate_fst, hfv]
    simp [resolveFallback, hd, hp]

/-- C1 witness: in the scenario with all three fallback sources
configured, the blocking rule's violation is resolved to the
rule-specific fallback, and the others are not consulted. -/
theorem validate_fallback_order_witness :
    isSafe fbOrderCfg blankState fbOrderAction = false ∧
    (validate fbOrderCfg blankState fbOrderAction "t").1 =
      Except.ok { type := "rule_fb", name := "RuleFb", description := "" } ∧
    (∃ name fb, firstViolation fbOrderCfg blankState fbOrderAction = some (name, fb) ∧
      (∀ f, fb = some f → (validate fbOrderCfg blankState fbOrderAction "t").1 = Except.ok f) ∧
      (fb = none → ∀ d, fbOrderCfg.defaultFallback = some d →
        (validate fbOrderCfg blankState fbOrderAction "t").1 = Except.ok d) ∧
      (fb = none → fbOrderCfg.defaultFallback = none →
        ∀ p, fbOrderCfg.fallbackPolicy = some p →
        (validate fbOrderCfg blankState fbOrderAction "t").1 =
          Except.ok (match p blankState with | .sync pa => pa | .async _ => fbOrderAction)) ∧
      (fb = none → fbOrderCfg.defaultFallback = none → fbOrderCfg.fallbackPolicy = none →
        (validate fbOrderCfg blankState fbOrderAction "t").1 =
          Except.error ("Guardrail violation: " ++ name ++ " - No fallback available"))) :=
  ⟨by decide, by decide,
   validate_fallback_order fbOrderCfg blankState fbOrderAction "t" (by decide)⟩

/-- C1 counterexample to the claim as stated: with a blacklist
violation, no rule fallback, no default fallback, but a configured
fallback policy (an asynchronous one resolving to the safe action),
`validate` neither returns the policy's selection nor raises the "no
fallback" error — it returns the original blacklisted action. -/
theorem validate_async_policy_counterexample :
    isSafe asyncPolicyCfg blankState asyncPolicyBad = false ∧
    asyncPolicyCfg.fallbackPolicy.isSome = true ∧
    (validate asyncPolicyCfg blankState asyncPolicyBad "t").1 = Except.ok asyncPolicyBad ∧
    asyncPolicyBad ≠ { type := "safe", name := "Safe", description := "" } := by
  refine ⟨by decide, by decide, by decide, by decide⟩

/-! ## Claim C2 -/

/-- C2.  When a blocking violation occurs whose guard carries no
rule-specific fallback, no default fallback is configured, and the
configured fallback policy's `selectAction` returns a promise (any
asynchronous policy), `validate` returns the original violating action
unchanged — an action `isSafe` rejects. -/
theorem validate_async_policy_returns_unsafe_action (cfg : GuardrailConfig) (st : State)
    (a : Action) (now : String) (name : String) (p : State → PolicyResult) (x : Action)
    (h1 : firstViolation cfg st a = some (name, none))
    (h2 : cfg.defaultFallback = none)
    (h3 : cfg.fallbackPolicy = some p)
    (h4 : p st = PolicyResult.async x) :
    (validate cfg st a now).1 = Except.ok a ∧ isSafe cfg st a = false := by
  constructor
  · rw [validate_fst, h1]
    simp [resolveFallback, h2, h3, h4]
  · exact (isSafe_eq_false_iff cfg st a).mpr ⟨(name, none), h1⟩

/-- C2 witness: the asynchronous-fallback-policy scenario instantiated;
`validate` hands back the blacklisted action itself even though the
policy would have selected the safe action. -/
theorem validate_async_policy_returns_unsafe_action_witness :
    firstViolation asyncPolicyCfg blankState asyncPolicyBad = some ("blacklist", none) ∧
    ((validate asyncPolicyCfg blankState asyncPolicyBad "t").1 = Except.ok asyncPolicyBad ∧
      isSafe asyncPolicyCfg blankState asyncPolicyBad = false) :=
  ⟨by decide,
   validate_async_policy_returns_unsafe_action asyncPolicyCfg blankState asyncPolicyBad "t"
     "blacklist" (fun _ => .async { type := "safe", name := "Safe", description := "" })
     { type := "safe", name := "Safe", description := "" } (by decide) (by decide) rfl rfl⟩

/-! ## Claim C9 -/

/-- C9 (amended).  A violation of a non-blocking rule never changes the
returned action; blocking violations are always recorded (with a
timestamp) so `getViolations`/`getStats` reflect them; but a
non-blocking violation is recorded only when `logViolations` is true —
with `logViolations := false` it leaves no trace. -/
theorem validate_violation_logging (cfg : GuardrailConfig) (st : State) (a : Action)
    (now : String) :
    (isSafe cfg st a = true →
        validate cfg st a now =
          (Except.ok a,
           if cfg.logViolations then
             ((rulesOf cfg).filter (fun r => r.check st a)).map
               (fun r => mkViolation r.name a st now false)
           else [])) ∧
    (isSafe cfg st a = false →
        ∃ name fb, firstViolation cfg st a = some (name, fb) ∧
          ((validate cfg st a now).2).getLast? = some (mkViolation name a st now true)) := by
  constructor
  · intro hsafe
    unfold isSafe at hsafe
    split_ifs at hsafe with hw hb
    · have hany : ((rulesOf cfg).any fun rule => rule.blocking && rule.check st a) = false := by
        rwa [Bool.not_eq_true'] at hsafe
      have hnone : ∀ r ∈ rulesOf cfg, ¬(r.check st a && r.blocking) = true := by
        rw [List.any_eq_false] at hany
        intro r hr hcontra
        exact hany r hr (by rwa [Bool.and_comm] at hcontra)
      unfold validate
      rw [if_neg hw, if_neg hb, validateRules_no_blocking cfg st a now (rulesOf cfg) [] hnone]
      simp
  · intro hunsafe
    obtain ⟨⟨name, fb⟩, hfv⟩ := (isSafe_eq_false_iff cfg st a).mp hunsafe
    refine ⟨name, fb, hfv, ?_⟩
    unfold firstViolation at hfv
    unfold validate
    split_ifs at hfv with hw hb
    · injection hfv with h1
      injection h1 with hn hf
      subst hn
      rw [if_pos hw]
      simp [handleViolation, List.getLast?_concat]
    · injection hfv with h1
      injection h1 with hn hf
      subst hn
      rw [if_neg hw, if_pos hb]
      simp [handleViolation, List.getLast?_concat]
    · rw [Option.map_eq_some'] at hfv
      obtain ⟨r, hfind, hr⟩ := hfv
      injection hr with hn hf
      subst hn
      rw [if_neg hw, if_neg hb]
      exact validateRules_blocking_getLast cfg st a now (rulesOf cfg) [] r hfind

/-- C9 witness: with logging enabled, a firing non-blocking rule leaves
the action unchanged and is recorded with its timestamp; and a blocking
(blacklist) violation is recorded even with `logViolations := false`. -/
theorem validate_violation_logging_witness :
    (isSafe nonBlockingLogCfg blankState benignAction = true ∧
      validate nonBlockingLogCfg blankState benignAction "t" =
        (Except.ok benignAction,
         if nonBlockingLogCfg.logViolations then
           ((rulesOf nonBlockingLogCfg).filter (fun r => r.check blankState benignAction)).map
             (fun r => mkViolation r.name benignAction blankState "t" false)
         else [])) ∧
    (isSafe nonBlockingSilentCfg blankState { type := "bad", name := "Bad", description := "" } = false ∧
      ∃ name fb,
        firstViolation nonBlockingSilentCfg blankState
            { type := "bad", name := "Bad", description := "" } = some (name, fb) ∧
        ((validate nonBlockingSilentCfg blankState
            { type := "bad", name := "Bad", description := "" } "t").2).getLast? =
          some (mkViolation name { type := "bad", name := "Bad", description := "" }
            blankState "t" true)) :=
  ⟨⟨by decide,
    (validate_violation_logging nonBlockingLogCfg blankState benignAction "t").1 (by decide)⟩,
   ⟨by decide,
    (validate_violation_logging nonBlockingSilentCfg blankState
      { type := "bad", name := "Bad", description := "" } "t").2 (by decide)⟩⟩

/-- C9 counterexample to the claim as stated: with
`logViolations := false`, a non-blocking rule fires (a violation is
encountered) yet the violations list stays empty — the violation is not
appended, contradicting "every rule violation encountered by validate is
appended to the violations list". -/
theorem nonblocking_unlogged_counterexample :
    ((rulesOf nonBlockingSilentCfg).any (fun r => r.check blankState benignAction)) = true ∧
    validate nonBlockingSilentCfg blankState benignAction "t" = (Except.ok benignAction, []) :=
  ⟨by decide, by decide⟩

/-! ## Bandit update lemmas -/

theorem find?_map_overwrite {β : Type} (k : String) (v : β) (m : List (String × β))
    (h : m.any (fun p => p.1 = k) = true) :
    (m.map (fun p => if p.1 = k then (k, v) else p)).find? (fun p => p.1 = k) = some (k, v) := by
  induction m with
  | nil => simp at h
  | cons p rest ih =>
    rw [List.map_cons, List.find?_cons]
    by_cases hp : p.1 = k
    · simp [hp]
    · have hrest : rest.any (fun q => q.1 = k) = true := by
        simpa [List.any_cons, hp] using h
      rw [if_neg hp]
      have hd : decide (p.1 = k) = false := decide_eq_false hp
      rw [hd]
      exact ih hrest

theorem find?_append_new {β : Type} (k : String) (v : β) (m : List (String × β))
    (h : m.any (fun p => p.1 = k) = false) :
    (m ++ [(k, v)]).find? (fun p => p.1 = k) = some (k, v) := by
  induction m with
  | nil => simp
  | cons p rest ih =>
    rw [List.cons_append, List.find?_cons]
    have hp : ¬p.1 = k := by
      intro hcontra
      simp [List.any_cons, hcontra] at h
    have hrest : rest.any (fun q => q.1 = k) = false := by
      rcases hx : rest.any (fun q => q.1 = k) with _ | _
      · rfl
      · simp [List.any_cons, hx] at h
    have hd : decide (p.1 = k) = false := decide_eq_false hp
    rw [hd]
    exact ih hrest

theorem jsGet_jsSet {β : Type} (m : List (String × β)) (k : String) (v : β) :
    jsGet (jsSet m k v) k = some v := by
  unfold jsGet jsSet
  by_cases han : m.any (fun p => p.1 = k) = true
  · rw [if_pos han, find?_map_overwrite k v m han]
    rfl
  · have han' : m.any (fun p => p.1 = k) = false := by
      rwa [Bool.not_eq_true] at han
    rw [if_neg han, find?_append_new k v m han']
    rfl

theorem getArm_setArm (cfg : BanditConfig) (m : ArmMap) (c t : String) (s : ArmStats) :
    getArmStats cfg (setArmStats m c t s) c t = s := by
  unfold getArmStats setArmStats
  rw [jsGet_jsSet]
  simp [jsGet_jsSet]

theorem getArm_update (cfg : BanditConfig) (m : ArmMap) (st : State) (a : Action) (r : ℚ) :
    getArmStats cfg (update cfg m st a r) (getContextKey st) a.type =
      armStep r (getArmStats cfg m (getContextKey st) a.type) := by
  unfold update
  rw [getArm_setArm]
  rfl

theorem armStep_foldl (r : ℚ) (rs : List ℚ) (n : ℕ) (t x : ℚ) :
    (r :: rs).foldl (fun s q => armStep q s) ⟨n, t, x⟩ =
      ⟨n + 1 + rs.length, t + r + rs.sum,
       (t + r + rs.sum) / ((n : ℚ) + 1 + (rs.length : ℚ))⟩ := by
  induction rs generalizing r n t x with
  | nil => simp [armStep]
  | cons r2 rest ih =>
    rw [List.foldl_cons]
    have step1 : armStep r ⟨n, t, x⟩ =
        (⟨n + 1, t + r, (t + r) / ((n : ℚ) + 1)⟩ : ArmStats) := rfl
    rw [step1, ih]
    simp only [List.length_cons, List.sum_cons, ArmStats.mk.injEq]
    refine ⟨by omega, by ring, by push_cast; ring⟩

theorem getArm_foldl_update (cfg : BanditConfig) (st : State) (a : Action) (rs : List ℚ)
    (m : ArmMap) :
    getArmStats cfg (rs.foldl (fun mm r => update cfg mm st a r) m) (getContextKey st) a.type =
      rs.foldl (fun s r => armStep r s) (getArmStats cfg m (getContextKey st) a.type) := by
  induction rs generalizing m with
  | nil => rfl
  | cons r rest ih =>
    rw [List.foldl_cons, List.foldl_cons, ih, getArm_update]

/-! ## Claim C4 -/

/-- C4.  For every `(context, action)` arm: after `n ≥ 1` calls to
`update` with rewards `r1..rn` on that arm, starting from the
absent/default stats, the stored `ArmStats` has `pulls = n`,
`totalReward = Σrᵢ` and `averageReward = (Σrᵢ)/n`; moreover after every
single `update` the invariant `averageReward = totalReward / pulls`
holds (with `pulls > 0`), and `pulls` increases by exactly one — it
never decreases. -/
theorem bandit_running_mean (cfg : BanditConfig) (st : State) (a : Action) (rs : List ℚ)
    (hne : rs ≠ []) :
    (getArmStats cfg (rs.foldl (fun m r => update cfg m st a r) [])
        (getContextKey st) a.type).pulls = rs.length ∧
    (getArmStats cfg (rs.foldl (fun m r => update cfg m st a r) [])
        (getContextKey st) a.type).totalReward = rs.sum ∧
    (getArmStats cfg (rs.foldl (fun m r => update cfg m st a r) [])
        (getContextKey st) a.type).averageReward = rs.sum / (rs.length : ℚ) ∧
    (∀ (m : ArmMap) (r : ℚ),
      (getArmStats cfg (update cfg m st a r) (getContextKey st) a.type).averageReward =
        (getArmStats cfg (update cfg m st a r) (getContextKey st) a.type).totalReward /
          ((getArmStats cfg (update cfg m st a r) (getContextKey st) a.type).pulls : ℚ) ∧
      (getArmStats cfg (update cfg m st a r) (getContextKey st) a.type).pulls =
        (getArmStats cfg m (getContextKey st) a.type).pulls + 1) := by
  obtain ⟨r, rest, rfl⟩ := List.exists_cons_of_ne_nil hne
  have hbase : getArmStats cfg ([] : ArmMap) (getContextKey st) a.type =
      ⟨0, 0, cfg.initialReward⟩ := rfl
  rw [getArm_foldl_update, hbase, armStep_foldl]
  refine ⟨?_, ?_, ?_, ?_⟩
  · simp only [List.length_cons]
    omega
  · simp only [List.sum_cons]
    ring
  · simp only [List.sum_cons, List.length_cons]
    push_cast
    ring_nf
  · intro m r2
    rw [getArm_update]
    constructor
    · show ((getArmStats cfg m (getContextKey st) a.type).totalReward + r2) /
          (((getArmStats cfg m (getContextKey st) a.type).pulls : ℚ) + 1) = _
      push_cast [armStep]
      ring_nf
    · rfl

/-- C4 witness: rewards `[1, 1/2]` on the blank context give
`pulls = 2`, `totalReward = 3/2`, `averageReward = 3/4`, and the
per-update invariant instances. -/
theorem bandit_running_mean_witness :
    (getArmStats { initialReward := 0 : BanditConfig }
        ([(1 : ℚ), 1/2].foldl
          (fun m r => update { initialReward := 0 : BanditConfig } m blankState benignAction r) [])
        (getContextKey blankState) benignAction.type = { pulls := 2, totalReward := 3/2, averageReward := 3/4 }) ∧
    (([(1 : ℚ), 1/2] : List ℚ) ≠ [] ∧
      ((getArmStats { initialReward := 0 : BanditConfig }
          ([(1 : ℚ), 1/2].foldl
            (fun m r => update { initialReward := 0 : BanditConfig } m blankState benignAction r) [])
          (getContextKey blankState) benignAction.type).pulls = [(1 : ℚ), 1/2].length ∧
        (getArmStats { initialReward := 0 : BanditConfig }
          ([(1 : ℚ), 1/2].foldl
            (fun m r => update { initialReward := 0 : BanditConfig } m blankState benignAction r) [])
          (getContextKey blankState) benignAction.type).totalReward = [(1 : ℚ), 1/2].sum ∧
        (getArmStats { initialReward := 0 : BanditConfig }
          ([(1 : ℚ), 1/2].foldl
            (fun m r => update { initialReward := 0 : BanditConfig } m blankState benignAction r) [])
          (getContextKey blankState) benignAction.type).averageReward =
            [(1 : ℚ), 1/2].sum / (([(1 : ℚ), 1/2].length : ℚ)) ∧
        (∀ (m : ArmMap) (r : ℚ),
          (getArmStats { initialReward := 0 : BanditConfig }
              (update { initialReward := 0 : BanditConfig } m blankState benignAction r)
              (getContextKey blankState) benignAction.type).averageReward =
            (getArmStats { initialReward := 0 : BanditConfig }
              (update { initialReward := 0 : BanditConfig } m blankState benignAction r)
              (getContextKey blankState) benignAction.type).totalReward /
              (((getArmStats { initialReward := 0 : BanditConfig }
                (update { initialReward := 0 : BanditConfig } m blankState benignAction r)
                (getContextKey blankState) benignAction.type).pulls : ℚ)) ∧
          (getArmStats { initialReward := 0 : BanditConfig }
              (update { initialReward := 0 : BanditConfig } m blankState benignAction r)
              (getContextKey blankState) benignAction.type).pulls =
            (getArmStats { initialReward := 0 : BanditConfig } m
              (getContextKey blankState) benignAction.type).pulls + 1))) :=
  ⟨by
    have hbase : getArmStats { initialReward := 0 : BanditConfig } ([] : ArmMap)
        (getContextKey blankState) benignAction.type = ⟨0, 0, 0⟩ := rfl
    rw [getArm_foldl_update, hbase, armStep_foldl]
    norm_num [ArmStats.mk.injEq, List.sum_cons, List.sum_nil],
   by decide,
   bandit_running_mean { initialReward := 0 : BanditConfig } blankState benignAction
     [(1 : ℚ), 1/2] (by decide)⟩

/-! ## Claim C6 -/

theorem renderFeature_bucketFeature (f : FeatureValue) :
    renderFeature (bucketFeature f) = renderFeature f := by
  cases f with
  | num v =>
    simp only [bucketFeature, renderFeature, bucket]
    congr 1
    have hmul : ((Int.floor (v * 10) : ℚ) / 10) * 10 = ((Int.floor (v * 10) : ℚ)) := by
      ring
    rw [hmul, Int.floor_intCast]
  | str s => rfl
  | bool b => rfl

/-- C6.  `getContextKey` is deterministic and depends only on the intent
and the (0.1-bucketed) features: two states agreeing on those agree on
the key, whatever their `conversationId`, `turnNumber`, `history`,
`userInfo` or `metadata`; and an empty feature set with no intent gives
the empty string. -/
theorem getContextKey_deterministic :
    (∀ s1 s2 : State, s1.intent = s2.intent →
      s1.features.map (fun kv => (kv.1, bucketFeature kv.2)) =
        s2.features.map (fun kv => (kv.1, bucketFeature kv.2)) →
      getContextKey s1 = getContextKey s2) ∧
    (∀ s : State, s.features = [] → s.intent = none → getContextKey s = "") := by
  constructor
  · intro s1 s2 hintent hfeat
    have h2 : s1.features.map (fun kv => kv.1 ++ ":" ++ renderFeature kv.2) =
        s2.features.map (fun kv => kv.1 ++ ":" ++ renderFeature kv.2) := by
      have h3 := congrArg
        (List.map (fun kv : String × FeatureValue => kv.1 ++ ":" ++ renderFeature kv.2)) hfeat
      rw [List.map_map, List.map_map] at h3
      simpa [Function.comp_def, renderFeature_bucketFeature] using h3
    simp only [getContextKey]
    rw [hintent, h2]
  · intro s hf hi
    simp only [getContextKey, hf, hi, List.map_nil, List.append_nil]
    rfl

/-- C6 witness: `ctxStateA` and `ctxStateB` differ in id, turn number,
history and metadata and carry numeric features 0.51 vs 0.55, both
bucketing to 0.5 — their context keys coincide; and the blank state
yields the empty key. -/
theorem getContextKey_deterministic_witness :
    (ctxStateA.intent = ctxStateB.intent ∧
      ctxStateA.features.map (fun kv => (kv.1, bucketFeature kv.2)) =
        ctxStateB.features.map (fun kv => (kv.1, bucketFeature kv.2)) ∧
      getContextKey ctxStateA = getContextKey ctxStateB) ∧
    (blankState.features = [] ∧ blankState.intent = none ∧ getContextKey blankState = "") := by
  have hfeat : ctxStateA.features.map (fun kv => (kv.1, bucketFeature kv.2)) =
      ctxStateB.features.map (fun kv => (kv.1, bucketFeature kv.2)) := by
    simp only [ctxStateA, ctxStateB, List.map_cons, List.map_nil, bucketFeature]
    norm_num [bucket]
  exact ⟨⟨rfl, hfeat, getContextKey_deterministic.1 ctxStateA ctxStateB rfl hfeat⟩,
         ⟨rfl, rfl, getContextKey_deterministic.2 blankState rfl rfl⟩⟩

/-! ## Claim C5 -/

/-- C5.  `processOutcome` computes one delayed reward, walks the episode
history backward from index `L-1` down to `0`, and issues exactly one
`Policy.update` per entry: the entry at index `i` (appearing at position
`L-1-i` of the backward walk) receives `combine` of its stored immediate
reward (weighted by `immediateWeight`) and
`delayedReward * discountFactor ^ (L-1-i)` (weighted by
`delayedWeight`). -/
theorem processOutcome_credit (cfg : RewardConfig) (hist : List StepRecord)
    (outcome : ConversationOutcome) (i : ℕ) (h : i < hist.length) :
    (processOutcomeUpdates cfg hist outcome).length = hist.length ∧
    (processOutcomeUpdates cfg hist outcome)[hist.length - 1 - i]? =
      some ((hist.get ⟨i, h⟩).state, (hist.get ⟨i, h⟩).action,
        combine cfg
          [{ value := (hist.get ⟨i, h⟩).reward, type := .immediate, source := "step" },
           { value := (calculateDelayed outcome).value * cfg.discountFactor ^ (hist.length - 1 - i),
             type := .delayed, source := "outcome" }]) := by
  constructor
  · simp [processOutcomeUpdates, List.enum_length]
  · simp only [processOutcomeUpdates]
    rw [List.getElem?_map]
    rw [List.getElem?_reverse (by simp only [List.enum_length]; omega)]
    have hidx : hist.enum.length - 1 - (hist.length - 1 - i) = i := by
      simp only [List.enum_length]
      omega
    rw [hidx, List.getElem?_enum]
    rw [List.getElem?_eq_getElem h]
    simp [discount, List.get_eq_getElem]

/-- C5 witness: the 3-step episode with immediate rewards
`[0.1, 0.2, 0.3]` and a successful outcome (`delayed = 1`); the earliest
step sits at position 2 of the backward walk, discounted by `0.99 ^ 2`,
and its exact combined total with weights 0.3/0.7 is `0.71607`. -/
theorem processOutcome_credit_witness :
    ((0 : ℕ) < demoHistory.length ∧
      ((processOutcomeUpdates {} demoHistory successOutcome).length = demoHistory.length ∧
        (processOutcomeUpdates {} demoHistory successOutcome)[demoHistory.length - 1 - 0]? =
          some ((demoHistory.get ⟨0, by decide⟩).state, (demoHistory.get ⟨0, by decide⟩).action,
            combine {}
              [{ value := (demoHistory.get ⟨0, by decide⟩).reward, type := .immediate,
                 source := "step" },
               { value := (calculateDelayed successOutcome).value *
                   RewardConfig.discountFactor {} ^ (demoHistory.length - 1 - 0),
                 type := .delayed, source := "outcome" }]))) ∧
    (processOutcomeUpdates {} demoHistory successOutcome)[2]? =
      some (blankState, askAction, 71607/100000) :=
  ⟨⟨by decide, processOutcome_credit {} demoHistory successOutcome 0 (by decide)⟩,
   by norm_num +decide [processOutcomeUpdates, demoHistory, successOutcome, combine, discount,
     calculateDelayed, normalize, List.enum, List.enumFrom]⟩

/-! ## Claim C7 -/

/-- C7 (amended).  With UCB enabled, a positive confidence bonus, and a
fixed `totalContextPulls ≥ 2` (so that `ln(totalContextPulls) > 0`),
the action value of an arm with fixed `averageReward` is strictly
decreasing in its pull count for all pulls ≥ 1: more pulls strictly
shrink the exploration bonus. -/
theorem ucb_value_strict_anti (cfg : BanditConfig) (avg t : ℚ) (p1 p2 totalPulls : ℕ)
    (hucb : cfg.useUCB = true) (hcb : 0 < cfg.confidenceBonus)
    (h1 : 1 ≤ p1) (h12 : p1 < p2) (hT : 2 ≤ totalPulls) :
    ucbValue cfg ⟨p2, t, avg⟩ totalPulls < ucbValue cfg ⟨p1, t, avg⟩ totalPulls := by
  have hp1ne : ¬(p1 = 0) := by omega
  have hp2ne : ¬(p2 = 0) := by omega
  have hTne : ¬(totalPulls = 0) := by omega
  simp only [ucbValue, hucb, if_true, hp1ne, hp2ne, hTne, if_false]
  apply add_lt_add_left
  have hp1R : (0 : ℝ) < (p1 : ℝ) := by
    have : 0 < p1 := h1
    exact_mod_cast this
  have hp12R : (p1 : ℝ) < (p2 : ℝ) := by exact_mod_cast h12
  have hp2R : (0 : ℝ) < (p2 : ℝ) := lt_trans hp1R hp12R
  have hlog : 0 < Real.log totalPulls := by
    apply Real.log_pos
    have : (2 : ℝ) ≤ (totalPulls : ℝ) := by exact_mod_cast hT
    linarith
  have hdiv : Real.log totalPulls / (p2 : ℝ) < Real.log totalPulls / (p1 : ℝ) :=
    div_lt_div_of_pos_left hlog hp1R hp12R
  have hsqrt : Real.sqrt (Real.log totalPulls / (p2 : ℝ)) <
      Real.sqrt (Real.log totalPulls / (p1 : ℝ)) :=
    Real.sqrt_lt_sqrt (le_of_lt (div_pos hlog hp2R)) hdiv
  have hcbR : (0 : ℝ) < (cfg.confidenceBonus : ℝ) := by exact_mod_cast hcb
  exact mul_lt_mul_of_pos_left hsqrt hcbR

/-- C7 witness: with the default configuration (UCB on, bonus 2), at
fixed `totalContextPulls = 4` and fixed average 0, going from 1 pull to
2 pulls strictly lowers the arm's value. -/
theorem ucb_value_strict_anti_witness :
    ({} : BanditConfig).useUCB = true ∧ ((0 : ℚ) < ({} : BanditConfig).confidenceBonus) ∧
    (1 : ℕ) ≤ 1 ∧ (1 : ℕ) < 2 ∧ (2 : ℕ) ≤ 4 ∧
    ucbValue ({} : BanditConfig) ⟨2, 0, 0⟩ 4 < ucbValue ({} : BanditConfig) ⟨1, 0, 0⟩ 4 :=
  ⟨rfl, by show (0 : ℚ) < 2; norm_num, by norm_num, by norm_num, by norm_num,
   ucb_value_strict_anti ({} : BanditConfig) 0 0 1 2 4 rfl
     (by show (0 : ℚ) < 2; norm_num) (by norm_num) (by norm_num) (by norm_num)⟩

/-- C7 counterexample to the claim as stated: at
`totalContextPulls = 1` the exploration bonus is
`confidenceBonus * sqrt(ln 1 / pulls) = 0` for every pull count, so the
value does NOT strictly decrease from 1 pull to 2 pulls. -/
theorem ucb_value_totalPulls_one_counterexample :
    ucbValue ({} : BanditConfig) ⟨1, 0, 0⟩ 1 = 0 ∧
    ucbValue ({} : BanditConfig) ⟨2, 0, 0⟩ 1 = 0 ∧
    ¬ (ucbValue ({} : BanditConfig) ⟨2, 0, 0⟩ 1 < ucbValue ({} : BanditConfig) ⟨1, 0, 0⟩ 1) := by
  have h1 : ucbValue ({} : BanditConfig) ⟨1, 0, 0⟩ 1 = 0 := by
    simp [ucbValue, Real.log_one]
  have h2 : ucbValue ({} : BanditConfig) ⟨2, 0, 0⟩ 1 = 0 := by
    simp [ucbValue, Real.log_one]
  exact ⟨h1, h2, by rw [h1, h2]; exact lt_irrefl 0⟩

/-! ## Claim C8 -/

/-- C8 (amended).  `calculateDelayed` returns the clamp to `[-1, 1]` of:
`+1` for success else `-1`, plus `(userSatisfaction - 0.5) * 0.5`
whenever the `userSatisfaction` metric is present AND nonzero (the
source guards it with a JS truthiness test, so a present-but-zero
satisfaction contributes nothing), plus `0.5` when `goalAchieved`,
minus `0.2` when `duration > 600`. -/
theorem calculateDelayed_formula (o : ConversationOutcome) :
    (calculateDelayed o).value =
      max (-1) (min 1
        ((if o.success then (1 : ℚ) else -1) +
         (match o.metrics.bind (fun m => m.userSatisfaction) with
          | some us => if us ≠ 0 then (us - 1/2) * (1/2) else 0
          | none => 0) +
         (if (o.metrics.bind (fun m => m.goalAchieved)).getD false then 1/2 else 0) +
         (match o.metrics.bind (fun m => m.duration) with
          | some d => if d > 600 then -(1/5) else 0
          | none => 0))) := by
  have hdur : ∀ d : ℚ,
      (if d ≠ 0 ∧ d > 600 then -(1/5 : ℚ) else 0) = (if d > 600 then -(1/5 : ℚ) else 0) := by
    intro d
    by_cases hd : d > 600
    · have hne : d ≠ 0 := by
        intro h0
        rw [h0] at hd
        norm_num at hd
      rw [if_pos (And.intro hne hd), if_pos hd]
    · rw [if_neg (fun hc => hd hc.2), if_neg hd]
  rcases o with ⟨succ, mo⟩
  cases mo with
  | none => rfl
  | some m =>
    rcases m with ⟨dur, us, goal⟩
    cases dur with
    | none => cases us <;> cases goal <;> rfl
    | some d =>
      cases us <;> cases goal <;>
        simp only [calculateDelayed, normalize, Option.some_bind, Option.getD_none,
          Option.getD_some] <;>
        rw [hdur d]

/-- C8 counterexample to the claim as stated: an outcome carrying
`userSatisfaction = 0` does NOT receive the `-0.25` satisfaction term —
the truthiness guard skips zero, so a satisfied-at-zero success scores
`1`, not the claimed `0.75`. -/
theorem userSatisfaction_zero_counterexample :
    (calculateDelayed
        { success := true, metrics := some { userSatisfaction := some 0 } }).value = 1 ∧
    max (-1) (min 1 ((1 : ℚ) + ((0 : ℚ) - 1/2) * (1/2))) = 3/4 ∧
    (1 : ℚ) ≠ 3/4 := by
  refine ⟨?_, by norm_num, by norm_num⟩
  norm_num [calculateDelayed, normalize]

/-! ## Claim C10 -/

/-- C10.  `setEpsilon` clamps into `[epsilonMin, 1]` as claimed, but
`reset` does NOT restore the epsilon given at construction: for an
instance built with `config.epsilon = 1/2` and no `explorationRate`,
`resetEpsilon` reads the resolved base config's
`explorationRate ?? 0.1`, so `getEpsilon()` after `reset()` is `0.1`,
not `1/2` — the code contradicts `resetEpsilon`'s own "reset epsilon to
initial value" doc comment. -/
theorem epsilon_reset_uses_explorationRate :
    getEpsilon (mkEpsilonGreedy { epsilon := some (1/2) }) = 1/2 ∧
    getEpsilon (egReset (mkEpsilonGreedy { epsilon := some (1/2) })) = 1/10 ∧
    ((1 : ℚ)/10 ≠ 1/2) ∧
    (setEpsilon (mkEpsilonGreedy { epsilon := some (1/2) }) 2).epsilon = 1 ∧
    (setEpsilon (mkEpsilonGreedy { epsilon := some (1/2) }) (1/1000)).epsilon = 1/100 := by
  refine ⟨rfl, rfl, by norm_num, ?_, ?_⟩
  · show max (1/100 : ℚ) (min 1 2) = 1
    norm_num
  · show max (1/100 : ℚ) (min 1 (1/1000)) = 1/100
    norm_num

/-! ## Claim C3 -/

/-- C3 evaluated at the failing input.  With UCB off, arm `ask_more`
averaging 3/5 and arm `wrap_up` averaging 1/2, and `ask_more` occupying
both of the last two agent turns (repetitionPenalty 1, lookback 2), the
claimed penalized score of `ask_more` is `3/5 - 2 < 1/2`, so the claim
says `wrap_up` must win — but `selectBestAction` never subtracts
`getRepetitionPenalty` (the helper is dead code) and still returns
`ask_more`. -/
theorem repetition_penalty_unused :
    selectBestAction banditNoUCBCfg repeatArmMap repeatState [repeatAction, altAction] =
      some repeatAction ∧
    getRepetitionPenalty banditNoUCBCfg repeatAction.type repeatState = 2 ∧
    getRepetitionPenalty banditNoUCBCfg altAction.type repeatState = 0 ∧
    getActionValue banditNoUCBCfg repeatArmMap (getContextKey repeatState) repeatAction.type -
        ((getRepetitionPenalty banditNoUCBCfg repeatAction.type repeatState : ℚ) : ℝ) <
      getActionValue banditNoUCBCfg repeatArmMap (getContextKey repeatState) altAction.type -
        ((getRepetitionPenalty banditNoUCBCfg altAction.type repeatState : ℚ) : ℝ) := by
  have hctx : getContextKey repeatState = "" := rfl
  have hgA : getArmStats banditNoUCBCfg repeatArmMap "" "ask_more" =
      ⟨2, 6/5, 3/5⟩ := rfl
  have hgB : getArmStats banditNoUCBCfg repeatArmMap "" "wrap_up" =
      ⟨2, 1, 1/2⟩ := rfl
  have hvA : getActionValue banditNoUCBCfg repeatArmMap "" "ask_more" = ((3/5 : ℚ) : ℝ) := by
    unfold getActionValue
    rw [hgA]
    simp [ucbValue, banditNoUCBCfg]
  have hvB : getActionValue banditNoUCBCfg repeatArmMap "" "wrap_up" = ((1/2 : ℚ) : ℝ) := by
    unfold getActionValue
    rw [hgB]
    simp [ucbValue, banditNoUCBCfg]
  have hpA : getRepetitionPenalty banditNoUCBCfg repeatAction.type repeatState = 2 := by
    norm_num +decide [getRepetitionPenalty, banditNoUCBCfg, repeatState, repeatAction,
      takeLastJS]
  have hpB : getRepetitionPenalty banditNoUCBCfg altAction.type repeatState = 0 := by
    norm_num +decide [getRepetitionPenalty, banditNoUCBCfg, repeatState, repeatAction,
      altAction, takeLastJS]
  refine ⟨?_, hpA, hpB, ?_⟩
  · simp only [selectBestAction, hctx, List.foldl_cons, List.foldl_nil, List.head?]
    dsimp only [repeatAction, altAction]
    rw [hvA, hvB]
    rw [if_neg (show ¬(((3/5 : ℚ) : ℝ) < ((1/2 : ℚ) : ℝ)) by push_cast; norm_num)]
  · rw [hctx]
    have htA : repeatAction.type = "ask_more" := rfl
    have htB : altAction.type = "wrap_up" := rfl
    have hpA2 : getRepetitionPenalty banditNoUCBCfg "ask_more" repeatState = 2 := htA ▸ hpA
    have hpB2 : getRepetitionPenalty banditNoUCBCfg "wrap_up" repeatState = 0 := htB ▸ hpB
    rw [htA, htB, hvA, hvB, hpA2, hpB2]
    push_cast
    norm_num

end BrothRL
